import Mathlib

/-!
# Verification of the domain-scoped session cookie manager

Shallow embedding of the cookie subsystem of `src/soap-client.js`
(class `SOAPClient`): the cookie store (`processCookies`,
`applyCookiesForDomain`, `getSessionCookies`, `clearSessionCookies`,
`addCookiesForDomain`), the multi-strategy cookie extractor
(`extractCookiesFromMultipleSources`) and the connect / executeMethod
coordinator.  JavaScript strings become Lean `String`s, the JS `Map`
used for `this.sessionCookies` becomes an association list with JS
`Map` semantics (insertion order kept, `set` replaces in place),
`undefined`/`null` become `Option`, and a thrown exception that is
caught becomes an `Except` value whose error branch carries the state
at the throw point (JS mutations persist past a caught throw).
`console.log`/`console.error` output is modelled as a `log` list so
that logged context is observable; in addition the state carries a
ghost field `applyLog` recording each invocation of
`applyCookiesForDomain` (newest first) — it is instrumentation only,
not part of the source program's data.
-/

namespace SoapClient

/-! ## JavaScript string primitives used by the source -/

/-- JS `s.split(sep)` for a one-character separator, on the character
list.  JS `split` never returns an empty array: `""` splits to `[""]`. -/
def splitChar (sep : Char) : List Char → List (List Char)
  | [] => [[]]
  | c :: rest =>
    match splitChar sep rest with
    | [] => [[c]]
    | h :: t => if c = sep then [] :: h :: t else (c :: h) :: t

/-- JS `s.split(sep)` (one-character separator) on `String`. -/
def jsSplit (s : String) (sep : Char) : List String :=
  (splitChar sep s.data).map (fun l => ⟨l⟩)

/-- JS `s.split(sep)[0]`: the part of `s` before the first `sep`
(`s` itself if `sep` does not occur). -/
def jsFirst (s : String) (sep : Char) : String :=
  (jsSplit s sep).headD ""

/-- The name of a stored cookie string: the part before the first `=`
(`cookiePart.split('=')[0]` in `processCookies`). -/
def cookieName (e : String) : String := jsFirst e '='

theorem splitChar_ne_nil (sep : Char) (l : List Char) : splitChar sep l ≠ [] := by
  cases l with
  | nil => simp [splitChar]
  | cons c rest =>
    simp only [splitChar]
    cases h : splitChar sep rest with
    | nil => simp
    | cons h t =>
      by_cases hc : c = sep <;> simp [hc]

theorem jsSplit_ne_nil (s : String) (sep : Char) : jsSplit s sep ≠ [] := by
  simp [jsSplit, splitChar_ne_nil]

/-- Behaviour of `splitChar` on a list that starts with the separator. -/
theorem splitChar_cons_sep (sep : Char) (rest : List Char) :
    splitChar sep (sep :: rest) = [] :: splitChar sep rest := by
  simp only [splitChar]
  cases h : splitChar sep rest with
  | nil => exact absurd h (splitChar_ne_nil sep rest)
  | cons a t => simp

/-- Behaviour of `splitChar` on a list starting with a non-separator character. -/
theorem splitChar_cons_ne (sep c : Char) (rest : List Char) (hc : c ≠ sep) :
    splitChar sep (c :: rest) =
      (c :: (splitChar sep rest).headD []) :: (splitChar sep rest).tail := by
  simp only [splitChar]
  cases h : splitChar sep rest with
  | nil => exact absurd h (splitChar_ne_nil sep rest)
  | cons a t => simp [hc]

/-- The first piece of a character-level split is `takeWhile (· ≠ sep)`. -/
theorem splitChar_head (sep : Char) (l : List Char) :
    (splitChar sep l).headD [] = l.takeWhile (fun c => c ≠ sep) := by
  induction l with
  | nil => simp [splitChar]
  | cons c rest ih =>
    by_cases hc : c = sep
    · subst hc
      simp [splitChar_cons_sep, List.takeWhile]
    · rw [splitChar_cons_ne sep c rest hc, List.headD_cons,
        List.takeWhile_cons_of_pos (by simp [hc]), ih]

/-- Lemma: `jsFirst` is the prefix of `s` before the first occurrence of `sep`. -/
theorem jsFirst_eq_takeWhile (s : String) (sep : Char) :
    jsFirst s sep = ⟨s.data.takeWhile (fun c => c ≠ sep)⟩ := by
  unfold jsFirst jsSplit
  cases h : splitChar sep s.data with
  | nil => exact absurd h (splitChar_ne_nil sep s.data)
  | cons a t =>
    have := splitChar_head sep s.data
    rw [h] at this
    simp only [List.headD_cons] at this
    simp [this]

/-! ## Data model -/

/-- A JS value found under the `set-cookie` key of a headers object:
either a single string or an array of strings (`processCookies` accepts
both via `Array.isArray(cookies) ? cookies : [cookies]`). -/
inductive CookieVal where
  | str (s : String)
  | arr (l : List String)
  deriving DecidableEq, Repr

/-- JS truthiness of a `set-cookie` value: an empty string is falsy,
every array (also the empty one) is truthy. -/
def CookieVal.truthy : CookieVal → Bool
  | .str s => s ≠ ""
  | .arr _ => true

/-- JS `Array.isArray(cookies) ? cookies : [cookies]` in `processCookies`. -/
def CookieVal.toArray : CookieVal → List String
  | .str s => [s]
  | .arr l => l

/-- A response-headers object, restricted to the only key the source
reads: `headers['set-cookie']` (`none` when the key is absent). -/
structure Headers where
  setCookie : Option CookieVal
  deriving DecidableEq, Repr

/-- The `raw` component of a call result: absent, a textual body, or a
wrapped response object that may expose a headers mapping. -/
inductive Raw where
  | absent
  | text (s : String)
  | obj (headers : Option Headers)
  deriving DecidableEq, Repr

/-- The `{ result, raw, soapHeader }` object `executeMethod` resolves
with; `soapHeader` is never read by the cookie core and is omitted,
the `result` payload is opaque to the cookie core. -/
structure CallResult where
  res : String
  raw : Raw
  deriving DecidableEq, Repr

/-- The slice of the node-soap client object the cookie core touches:
`lastResponseHeaders` and the `Cookie` entry of `httpHeaders`. -/
structure Client where
  lastResponseHeaders : Option Headers
  httpCookie : Option String
  deriving DecidableEq, Repr

/-- The fields of `SOAPClient` the cookie subsystem reads or writes,
plus the observable console log and the ghost `applyLog`
instrumentation (domains passed to `applyCookiesForDomain`, newest
first; not part of the source state). -/
structure SessionState where
  client : Option Client
  authCookie : Option String
  wsdlUrl : Option String
  serviceUrl : Option String
  sessionCookies : List (String × List String)
  currentDomain : Option String
  log : List String
  applyLog : List String
  deriving DecidableEq, Repr

/-- State of `new SOAPClient()`: everything null, empty cookie map. -/
def initialState : SessionState :=
  { client := none, authCookie := none, wsdlUrl := none, serviceUrl := none,
    sessionCookies := [], currentDomain := none, log := [], applyLog := [] }

/-- Append a console line (newest first). -/
def addLog (st : SessionState) (msg : String) : SessionState :=
  { st with log := msg :: st.log }

/-! ## JS `Map` semantics for `this.sessionCookies` -/

/-- JS `Map.get`. -/
def mapGet : List (String × List String) → String → Option (List String)
  | [], _ => none
  | (k', v') :: rest, k => if k' = k then some v' else mapGet rest k

/-- JS `Map.set`: replace in place when the key exists (insertion order is
kept), otherwise append. -/
def mapSet : List (String × List String) → String → List String →
    List (String × List String)
  | [], k, v => [(k, v)]
  | (k', v') :: rest, k, v =>
    if k' = k then (k, v) :: rest else (k', v') :: mapSet rest k v

/-- JS `Map.delete` (keys are unique in a JS `Map`; removing every pair
with the key is the same operation). -/
def mapDelete : List (String × List String) → String → List (String × List String)
  | [], _ => []
  | (k', v') :: rest, k =>
    if k' = k then mapDelete rest k else (k', v') :: mapDelete rest k

theorem mapGet_mapSet_self (m : List (String × List String)) (k : String)
    (v : List String) : mapGet (mapSet m k v) k = some v := by
  induction m with
  | nil => simp [mapSet, mapGet]
  | cons p rest ih =>
    obtain ⟨k', v'⟩ := p
    by_cases h : k' = k <;> simp [mapSet, mapGet, h, ih]

theorem mapGet_mapSet_ne (m : List (String × List String)) (k d : String)
    (v : List String) (hne : d ≠ k) :
    mapGet (mapSet m k v) d = mapGet m d := by
  induction m with
  | nil => simp [mapSet, mapGet, Ne.symm hne]
  | cons p rest ih =>
    obtain ⟨k', v'⟩ := p
    by_cases h : k' = k
    · subst h
      simp [mapSet, mapGet, Ne.symm hne]
    · simp only [mapSet, if_neg h, mapGet]
      by_cases h2 : k' = d <;> simp [h2, ih]

theorem mapGet_mapDelete (m : List (String × List String)) (k d : String) :
    mapGet (mapDelete m k) d = if d = k then none else mapGet m d := by
  induction m with
  | nil => simp [mapDelete, mapGet]
  | cons p rest ih =>
    obtain ⟨k', v'⟩ := p
    by_cases h : k' = k
    · subst h
      rw [show mapDelete ((k', v') :: rest) k' = mapDelete rest k' by
        simp [mapDelete], ih]
      by_cases h2 : d = k'
      · simp [h2]
      · simp [mapGet, h2, Ne.symm h2]
    · simp only [mapDelete, if_neg h, mapGet, ih]
      by_cases h2 : k' = d
      · subst h2
        simp [h]
      · simp [h2]

/-! ## Cookie store operations (`soap-client.js` lines 289-384) -/

/-- JS `s.startsWith(pre)`, character by character. -/
def jsStartsWith (s pre : String) : Bool :=
  pre.data.isPrefixOf s.data

/-- Body of the `forEach` in `processCookies` for one raw cookie
string: keep only the part before the first `;`, drop every stored
entry that starts with `name + '='` (`name` is the part before the
first `=`), and append the new part at the end. -/
def mergeCookiePart (domainCookies : List String) (cookie : String) :
    List String :=
  let cookiePart := jsFirst cookie ';'
  let name := jsFirst cookiePart '='
  (domainCookies.filter (fun existing => !jsStartsWith existing (name ++ "="))) ++
    [cookiePart]

/-- Source `applyCookiesForDomain(domain)` (lines 312-336).  Guard: falsy
client or falsy (empty) domain.  With stored non-empty cookies the
`Cookie` http header is deleted and re-added (net effect: replaced)
and `authCookie` updated; otherwise only a console line is produced.
The ghost `applyLog` records the invocation. -/
def applyCookiesForDomain (st : SessionState) (domain : String) : SessionState :=
  let st := { st with applyLog := domain :: st.applyLog }
  match st.client with
  | none => addLog st "Cannot apply cookies: No client"
  | some client =>
    if domain = "" then
      addLog st "Cannot apply cookies: No domain"
    else
      match mapGet st.sessionCookies domain with
      | some domainCookies =>
        if domainCookies.length > 0 then
          let cookieString := String.intercalate "; " domainCookies
          let st := { st with
            client := some { client with httpCookie := some cookieString },
            authCookie := some cookieString }
          let st := addLog st
            ("Applied existing cookies for domain " ++ domain ++ ": " ++ cookieString)
          addLog st ("These cookies will be used for all requests to " ++ domain)
        else
          addLog st ("No existing cookies found for domain " ++ domain)
      | none =>
        addLog st ("No existing cookies found for domain " ++ domain)

/-- Source `processCookies(cookies, domain)` (lines 290-309).  `domainCookies`
is read from the map once, before the loop, and every iteration
filters that same original list — a later cookie of the same batch
overwrites the map entry produced by an earlier one.  The trailing
`console.log` calls `.join` on `this.sessionCookies.get(domain)`,
which throws a `TypeError` when the key is still absent (possible only
for an empty `cookies` array); the error branch carries the state at
the throw point. -/
def processCookies (st : SessionState) (cookies : CookieVal) (domain : String) :
    Except SessionState SessionState :=
  let cookieArray := cookies.toArray
  let domainCookies := (mapGet st.sessionCookies domain).getD []
  let st := cookieArray.foldl
    (fun s cookie =>
      { s with sessionCookies :=
          mapSet s.sessionCookies domain (mergeCookiePart domainCookies cookie) })
    st
  let st := applyCookiesForDomain st domain
  match mapGet st.sessionCookies domain with
  | some l =>
    Except.ok (addLog st
      ("Session cookies updated for domain " ++ domain ++ ": " ++
        String.intercalate "; " l))
  | none => Except.error st

/-- Source `getSessionCookies()` (lines 340-344).  The falsy-`currentDomain`
guard also catches an empty-string domain; a *present* collection is
always truthy in JS (even `[]`), so a present collection is always
joined. -/
def getSessionCookies (st : SessionState) : Option String :=
  match st.currentDomain with
  | none => none
  | some d =>
    if d = "" then none
    else
      match mapGet st.sessionCookies d with
      | some cookies => some (String.intercalate "; " cookies)
      | none => none

/-- Source `clearSessionCookies(domain = null)` (lines 347-353):
`domain || this.currentDomain`, delete only when that is truthy. -/
def clearSessionCookies (st : SessionState) (domain : Option String) : SessionState :=
  let targetDomain : Option String :=
    match domain with
    | some d => if d = "" then st.currentDomain else some d
    | none => st.currentDomain
  match targetDomain with
  | some t =>
    if t = "" then st
    else
      addLog { st with sessionCookies := mapDelete st.sessionCookies t }
        ("Session cookies cleared for domain: " ++ t)
  | none => st


/-- Characters matched by the regex class `\s` and stripped by JS
`trim` (ASCII part; the unicode space classes do not occur in this
development). -/
def isJsWhitespace (c : Char) : Bool :=
  c = ' ' || c = '\t' || c = '\n' || c = '\r' || c = '\x0b' || c = '\x0c'

/-- JS `s.trim()` (ASCII whitespace; the unicode space classes JS also
strips do not occur in this development). -/
def jsTrim (s : String) : String :=
  ⟨((s.data.dropWhile isJsWhitespace).reverse.dropWhile isJsWhitespace).reverse⟩

/-- Source `addCookiesForDomain(domain, cookieString)` (lines 365-384): split
on `;`, trim each piece, replace the whole collection, re-apply when
the domain is current and a client exists. -/
def addCookiesForDomain (st : SessionState) (domain cookieString : String) :
    Bool × SessionState :=
  if domain = "" ∨ cookieString = "" then
    (false, addLog st "Domain and cookie string are required")
  else
    let cookies := (jsSplit cookieString ';').map jsTrim
    let st := { st with sessionCookies := mapSet st.sessionCookies domain cookies }
    let st :=
      if st.currentDomain = some domain ∧ st.client ≠ none then
        applyCookiesForDomain st domain
      else st
    (true, addLog st ("Added cookies for domain " ++ domain ++ ": " ++ cookieString))

/-! ## Cookie extraction (`soap-client.js` lines 243-287) -/

/-- Case-insensitive match of the lowercase pattern against a prefix of
the input. -/
def lowerMatches : List Char → List Char → Bool
  | [], _ => true
  | _ :: _, [] => false
  | p :: ps, c :: cs => p = c.toLower && lowerMatches ps cs

/-- Model of `result.raw.match(/Set-Cookie:\s*([^\r\n]+)/gi)` followed by
stripping the `Set-Cookie:\s*` prefix of each match: scan the body for
case-insensitive `Set-Cookie:`, skip whitespace, capture at least one
character up to the next CR/LF, and continue after the match.  Fuel is
the remaining length; every successful match consumes more than one
character, so the initial length suffices. -/
def scanSetCookieAux : Nat → List Char → List String
  | 0, _ => []
  | _ + 1, [] => []
  | fuel + 1, c :: cs =>
    if lowerMatches "set-cookie:".data (c :: cs) then
      let t := ((c :: cs).drop 11).dropWhile isJsWhitespace
      let v := t.takeWhile (fun ch => ch ≠ '\r' && ch ≠ '\n')
      if v.isEmpty then scanSetCookieAux fuel cs
      else String.mk v :: scanSetCookieAux fuel (t.drop v.length)
    else scanSetCookieAux fuel cs

/-- All cookie values the strategy-3 body scan produces. -/
def scanSetCookie (s : String) : List String :=
  scanSetCookieAux s.data.length s.data

/-- Run an `Except`-modelled `try`-block to its `catch`-state: a caught
JS exception leaves every mutation made before the throw in place. -/
def resState : Except SessionState SessionState → SessionState
  | .ok st => st
  | .error st => st

/-- Strategy 1 data source:
`this.client && this.client.lastResponseHeaders &&
this.client.lastResponseHeaders['set-cookie']` (truthy). -/
def strat1 (st : SessionState) : Option CookieVal :=
  match st.client with
  | some c =>
    match c.lastResponseHeaders with
    | some h =>
      match h.setCookie with
      | some v => if v.truthy then some v else none
      | none => none
    | none => none
  | none => none

/-- Strategy 2 data source:
`result.raw && result.raw.headers && result.raw.headers['set-cookie']`
(truthy); only an object `raw` has a `headers` property. -/
def strat2 (result : CallResult) : Option CookieVal :=
  match result.raw with
  | .obj (some h) =>
    match h.setCookie with
    | some v => if v.truthy then some v else none
    | none => none
  | _ => none

/-- Strategy 3 data source: `typeof result.raw === 'string'` and the
`Set-Cookie:` pattern matches at least once. -/
def strat3 (result : CallResult) : Option (List String) :=
  match result.raw with
  | .text s =>
    match scanSetCookie s with
    | [] => none
    | v :: vs => some (v :: vs)
  | _ => none

/-- Source `extractCookiesFromMultipleSources(result, responseHeaders)`
(lines 243-282; the second parameter is never read).  Early return on
falsy `currentDomain`; then a `try` block runs the three strategies in
order, stopping at the first truthy data source; the `catch` swallows
any error. -/
def extractCookiesFromMultipleSources (st : SessionState) (result : CallResult) :
    SessionState :=
  match st.currentDomain with
  | none => st
  | some domain =>
    if domain = "" then st
    else
      match strat1 st with
      | some v =>
        resState (processCookies
          (addLog st "Found cookies in SOAP client response headers") v domain)
      | none =>
        match strat2 result with
        | some v =>
          resState (processCookies
            (addLog st "Found cookies in raw response headers") v domain)
        | none =>
          match strat3 result with
          | some cookies =>
            resState (processCookies
              (addLog st "Found cookies in raw response text")
              (CookieVal.arr cookies) domain)
          | none => addLog st "No cookies found in response"

/-- Source `extractAndStoreCookies(rawResponse)` (lines 285-287), the legacy
entry point: wraps the raw response and delegates. -/
def extractAndStoreCookies (st : SessionState) (rawResponse : Raw) : SessionState :=
  extractCookiesFromMultipleSources st { res := "", raw := rawResponse }

/-! ## Coordinator: executeMethod and connect -/

/-- Outcome of the underlying RPC invocation, an external collaborator:
either the callback error, or the resolved `{result, raw}` plus the
`lastResponseHeaders` the transport leaves on the client. -/
inductive RpcOutcome where
  | failure (errMsg : String)
  | success (r : CallResult) (lastHeaders : Option Headers)
  deriving DecidableEq, Repr

/-- Source `executeMethod(methodName, parameters)` (lines 151-175).  Throws
`Not connected to any service` before the `try` when there is no
client; on callback error the original error is rethrown after a
console line carrying the method name; on success the transport
updates `lastResponseHeaders`, extraction runs, and `result.result` is
returned. -/
def executeMethod (st : SessionState) (methodName : String) (outcome : RpcOutcome) :
    Except String String × SessionState :=
  match st.client with
  | none => (Except.error "Not connected to any service", st)
  | some client =>
    match outcome with
    | .failure errMsg =>
      (Except.error errMsg,
        addLog st ("Failed to execute method " ++ methodName ++ ": " ++ errMsg))
    | .success r lastHeaders =>
      let st := { st with
        client := some { client with lastResponseHeaders := lastHeaders } }
      let st := extractCookiesFromMultipleSources st r
      (Except.ok r.res, st)

/-- The part of a URL after the first `://`, if any. -/
def afterScheme : List Char → Option (List Char)
  | [] => none
  | ':' :: '/' :: '/' :: rest => some rest
  | _ :: rest => afterScheme rest

/-- Modelled from Node's `new url.URL(u).hostname` (an external
collaborator), simplified to absolute `scheme://[user@]host[:port]/...`
URLs: the lowercase host, `none` when the URL does not parse (the
constructor throws). -/
def parseHostname (u : String) : Option String :=
  match afterScheme u.data with
  | none => none
  | some rest =>
    let authority : String := ⟨rest.takeWhile (fun c => c ≠ '/' && c ≠ '?' && c ≠ '#')⟩
    let hostport := (jsSplit authority '@').getLastD ""
    let host := jsFirst hostport ':'
    if host = "" then none else some ⟨host.data.map Char.toLower⟩

/-- Outcome of `soap.createClientAsync` plus the service location read
off `client.wsdl.services[...].ports[...].location` (external
collaborators). -/
inductive ConnectOutcome where
  | failure (errMsg : String)
  | success (client : Client) (serviceUrl : String)
  deriving DecidableEq, Repr

/-- Lines 24-44 of `connect`: when the WSDL domain already has stored
non-empty cookies, log the pre-load line (the cookie string itself
only feeds the construction request's `wsdl_headers`, which the
`ConnectOutcome` abstracts). -/
def preloadLog (st : SessionState) (targetDomain : String) : SessionState :=
  match mapGet st.sessionCookies targetDomain with
  | some l =>
    if l.length > 0 then
      addLog st ("Pre-loading cookies for domain " ++ targetDomain ++ ": " ++
        String.intercalate "; " l)
    else st
  | none => st

/-- Lines 46-66 of `connect`, after the RPC client was constructed:
record client and service URL, resolve the service domain (a throwing
URL constructor is caught into a `false` return), log, report a domain
switch, set `currentDomain` and re-apply cookies for it. -/
def connectSuccess (st : SessionState) (client : Client) (serviceUrl : String) :
    Bool × SessionState :=
  let st := { st with client := some client, serviceUrl := some serviceUrl }
  match parseHostname serviceUrl with
  | none =>
    (false, addLog st "Failed to connect to SOAP service: Invalid URL")
  | some serviceDomain =>
    let st := addLog st ("Connected to SOAP service at: " ++ serviceUrl)
    let st := addLog st ("Domain: " ++ serviceDomain)
    let st :=
      match st.currentDomain with
      | some cd =>
        if cd ≠ serviceDomain then
          addLog st ("Switching from domain " ++ cd ++ " to " ++ serviceDomain)
        else st
      | none => st
    let st := { st with currentDomain := some serviceDomain }
    (true, applyCookiesForDomain st serviceDomain)

/-- Source `connect(wsdlUrl, options)` (lines 16-71).  `this.wsdlUrl` is
assigned before anything can throw; URL-constructor or
client-construction errors are caught and turn into a `false` return;
on success the service domain becomes `currentDomain` and
`applyCookiesForDomain` runs for it. -/
def connect (st : SessionState) (wsdlUrl : String) (outcome : ConnectOutcome) :
    Bool × SessionState :=
  let st := { st with wsdlUrl := some wsdlUrl }
  match parseHostname wsdlUrl with
  | none =>
    (false, addLog st "Failed to connect to SOAP service: Invalid URL")
  | some targetDomain =>
    let st := preloadLog st targetDomain
    match outcome with
    | .failure errMsg =>
      (false, addLog st ("Failed to connect to SOAP service: " ++ errMsg))
    | .success client serviceUrl => connectSuccess st client serviceUrl

/-! ## Reachable session states -/

/-- States reachable through the public API from `new SOAPClient()`.
Only operations that can touch `this.sessionCookies` are listed;
`authenticate`, `describe`, `getAvailableMethods`, `getMethodInfo`,
`getSessionCookies` and `listAllCookies` never write to the store. -/
inductive Reachable : SessionState → Prop
  | init : Reachable initialState
  | connect {st} (wsdlUrl : String) (outcome : ConnectOutcome) :
      Reachable st → Reachable (connect st wsdlUrl outcome).2
  | executeMethod {st} (methodName : String) (outcome : RpcOutcome) :
      Reachable st → Reachable (executeMethod st methodName outcome).2
  | extractLegacy {st} (rawResponse : Raw) :
      Reachable st → Reachable (extractAndStoreCookies st rawResponse)
  | addCookies {st} (domain cookieString : String) :
      Reachable st → Reachable (addCookiesForDomain st domain cookieString).2
  | clear {st} (domain : Option String) :
      Reachable st → Reachable (clearSessionCookies st domain)

/-! ## Supporting lemmas: names, prefixes and the merge step -/

theorem isPrefixOf_iff_exists (l1 l2 : List Char) :
    l1.isPrefixOf l2 = true ↔ ∃ t, l2 = l1 ++ t := by
  induction l1 generalizing l2 with
  | nil => simp [List.isPrefixOf]
  | cons a as ih =>
    cases l2 with
    | nil => simp [List.isPrefixOf]
    | cons b bs =>
      simp only [List.isPrefixOf, Bool.and_eq_true, beq_iff_eq, ih, List.cons_append,
        List.cons.injEq]
      constructor
      · rintro ⟨rfl, t, rfl⟩
        exact ⟨t, rfl, rfl⟩
      · rintro ⟨t, rfl, rfl⟩
        exact ⟨rfl, t, rfl⟩

theorem mem_takeWhile_ne (l : List Char) (c : Char) :
    ∀ a ∈ l.takeWhile (fun x => x ≠ c), a ≠ c := by
  induction l with
  | nil => simp
  | cons b bs ih =>
    by_cases hb : b = c
    · subst hb
      simp [List.takeWhile_cons]
    · intro a ha
      rw [List.takeWhile_cons_of_pos (by simp [hb])] at ha
      rcases List.mem_cons.mp ha with rfl | ha
      · exact hb
      · exact ih a ha

theorem dropWhile_ne_eq_cons (l : List Char) (c : Char) (h : c ∈ l) :
    l.dropWhile (fun x => x ≠ c) = c :: (l.dropWhile (fun x => x ≠ c)).tail := by
  induction l with
  | nil => simp at h
  | cons b bs ih =>
    by_cases hb : b = c
    · subst hb
      simp [List.dropWhile_cons]
    · rw [List.dropWhile_cons_of_pos (by simp [hb])]
      refine ih ?_
      rcases List.mem_cons.mp h with h1 | h1
      · exact absurd h1.symm hb
      · exact h1

/-- A character list containing `c` splits as the part before the
first `c`, then `c`, then the rest. -/
theorem eq_takeWhile_cons (l : List Char) (c : Char) (h : c ∈ l) :
    l = l.takeWhile (fun x => x ≠ c) ++
      c :: (l.dropWhile (fun x => x ≠ c)).tail := by
  conv_lhs => rw [← List.takeWhile_append_dropWhile (p := fun x => x ≠ c) (l := l)]
  rw [← dropWhile_ne_eq_cons l c h]

theorem takeWhile_ne_append_cons (n rest : List Char) (c : Char)
    (hn : ∀ a ∈ n, a ≠ c) :
    (n ++ c :: rest).takeWhile (fun x => x ≠ c) = n := by
  induction n with
  | nil => simp [List.takeWhile_cons]
  | cons a as ih =>
    rw [List.cons_append,
      List.takeWhile_cons_of_pos (by simp [hn a (List.mem_cons_self a as)]),
      ih (fun a ha => hn a (List.mem_cons_of_mem _ ha))]

/-- Over character lists with an `=`, starting with `name ++ "="` is
the same as having that name (the part before the first `=`). -/
theorem prefixEq_iff_name (e n : List Char) (hn : ∀ a ∈ n, a ≠ '=')
    (he : '=' ∈ e) :
    (n ++ ['=']).isPrefixOf e = true ↔ e.takeWhile (fun x => x ≠ '=') = n := by
  rw [isPrefixOf_iff_exists]
  constructor
  · rintro ⟨t, rfl⟩
    rw [List.append_assoc, List.singleton_append]
    exact takeWhile_ne_append_cons n t '=' hn
  · intro hname
    refine ⟨(e.dropWhile (fun x => x ≠ '=')).tail, ?_⟩
    conv_lhs => rw [eq_takeWhile_cons e '=' he]
    rw [hname, List.append_assoc, List.singleton_append]

theorem data_append_eq (a b : String) : (a ++ b).data = a.data ++ b.data := rfl

theorem cookieName_data (e : String) :
    (cookieName e).data = e.data.takeWhile (fun x => x ≠ '=') := by
  rw [cookieName, jsFirst_eq_takeWhile]

theorem jsFirst_data (s : String) (sep : Char) :
    (jsFirst s sep).data = s.data.takeWhile (fun x => x ≠ sep) := by
  rw [jsFirst_eq_takeWhile]

/-- The String-level version of `prefixEq_iff_name`: for an entry that
contains `=`, the filter test of `processCookies` recognises exactly
the entries whose `cookieName` is the merged cookie's name. -/
theorem jsStartsWith_eq_name (e p : String) (he : '=' ∈ e.data) :
    jsStartsWith e (cookieName p ++ "=") = decide (cookieName e = cookieName p) := by
  have hn : ∀ a ∈ (cookieName p).data, a ≠ '=' := by
    rw [cookieName_data]
    exact mem_takeWhile_ne p.data '='
  have hiff := prefixEq_iff_name e.data (cookieName p).data hn he
  have hname : e.data.takeWhile (fun x => x ≠ '=') = (cookieName p).data ↔
      cookieName e = cookieName p := by
    rw [← cookieName_data]
    exact ⟨fun h => String.ext h, fun h => congrArg String.data h⟩
  have hdata : (cookieName p ++ "=").data = (cookieName p).data ++ ['='] := rfl
  rw [jsStartsWith, hdata]
  by_cases h : cookieName e = cookieName p
  · rw [hiff.mpr (hname.mpr h)]
    simp [h]
  · cases hb : ((cookieName p).data ++ ['=']).isPrefixOf e.data with
    | true => exact absurd (hname.mp (hiff.mp hb)) h
    | false => simp [h]

/-- A cookie part that contains `=` starts with its own
`name + "="`. -/
theorem jsStartsWith_self (p : String) (hp : '=' ∈ p.data) :
    jsStartsWith p (cookieName p ++ "=") = true := by
  have hdata : (cookieName p ++ "=").data = (cookieName p).data ++ ['='] := rfl
  rw [jsStartsWith, hdata, isPrefixOf_iff_exists]
  refine ⟨(p.data.dropWhile (fun x => x ≠ '=')).tail, ?_⟩
  conv_lhs => rw [eq_takeWhile_cons p.data '=' hp]
  rw [cookieName_data, List.append_assoc, List.singleton_append]

/-- When every stored entry contains `=`, the filter of the merge step
removes exactly the entries whose name is the merged cookie's name. -/
theorem mergeCookiePart_def (l : List String) (c : String) :
    mergeCookiePart l c =
      l.filter (fun existing =>
        !jsStartsWith existing (cookieName (jsFirst c ';') ++ "=")) ++
        [jsFirst c ';'] := rfl

theorem mergeCookiePart_eq_filter (l : List String) (c : String)
    (hl : ∀ e ∈ l, '=' ∈ e.data) :
    mergeCookiePart l c =
      l.filter (fun e => decide (cookieName e ≠ cookieName (jsFirst c ';'))) ++
        [jsFirst c ';'] := by
  rw [mergeCookiePart_def]
  congr 1
  apply List.filter_congr
  intro e he
  rw [jsStartsWith_eq_name e (jsFirst c ';') (hl e he), decide_not]

/-- After a merge there is exactly one entry whose literal prefix is
the merged cookie's `name + "="`: the merged part, at the end. -/
theorem mergeCookiePart_countP (l : List String) (c : String)
    (hp : '=' ∈ (jsFirst c ';').data) :
    (mergeCookiePart l c).countP
      (fun e => jsStartsWith e (cookieName (jsFirst c ';') ++ "=")) = 1 ∧
    (mergeCookiePart l c).getLast? = some (jsFirst c ';') := by
  rw [mergeCookiePart_def]
  constructor
  · rw [List.countP_append]
    have h1 : (l.filter (fun existing =>
        !jsStartsWith existing (cookieName (jsFirst c ';') ++ "="))).countP
        (fun e => jsStartsWith e (cookieName (jsFirst c ';') ++ "=")) = 0 := by
      rw [List.countP_eq_zero]
      intro a ha
      have := (List.mem_filter.mp ha).2
      simpa using this
    rw [h1]
    simp [List.countP_cons, jsStartsWith_self (jsFirst c ';') hp]
  · simp

/-- Merging the identical cookie twice is the same as merging it once
(the remerge removes the part it just appended and re-appends it). -/
theorem mergeCookiePart_idem (l : List String) (c : String)
    (hp : '=' ∈ (jsFirst c ';').data) :
    mergeCookiePart (mergeCookiePart l c) c = mergeCookiePart l c := by
  conv_lhs => rw [mergeCookiePart_def, mergeCookiePart_def]
  conv_rhs => rw [mergeCookiePart_def]
  congr 1
  rw [List.filter_append]
  have h2 : ([jsFirst c ';'].filter (fun existing =>
      !jsStartsWith existing (cookieName (jsFirst c ';') ++ "="))) = [] := by
    simp [jsStartsWith_self (jsFirst c ';') hp]
  rw [h2, List.append_nil, List.filter_filter]
  apply List.filter_congr
  intro e _
  simp

/-! ## State-level characterisations -/

/-- Last element of a list of strings, `""` for the empty list. -/
def lastD : List String → String
  | [] => ""
  | [c] => c
  | _ :: c2 :: rest => lastD (c2 :: rest)

theorem lastD_mem : ∀ (cs : List String), cs ≠ [] → lastD cs ∈ cs
  | [], h => absurd rfl h
  | [c], _ => by simp [lastD]
  | c1 :: c2 :: rest, _ => by
    rw [show lastD (c1 :: c2 :: rest) = lastD (c2 :: rest) from rfl]
    exact List.mem_cons_of_mem c1 (lastD_mem (c2 :: rest) (by simp))

theorem mapSet_mapSet (m : List (String × List String)) (k : String)
    (v w : List String) : mapSet (mapSet m k v) k w = mapSet m k w := by
  induction m with
  | nil => simp [mapSet]
  | cons p rest ih =>
    obtain ⟨k', v'⟩ := p
    by_cases h : k' = k
    · subst h
      simp [mapSet]
    · simp [mapSet, h, ih]

/-- Frame of `applyCookiesForDomain`: the store, the domains, the URLs
and the log-extension shape are untouched; the ghost `applyLog` gains
the domain. -/
theorem applyCookiesForDomain_frame (st : SessionState) (d : String) :
    (applyCookiesForDomain st d).sessionCookies = st.sessionCookies ∧
    (applyCookiesForDomain st d).currentDomain = st.currentDomain ∧
    (applyCookiesForDomain st d).wsdlUrl = st.wsdlUrl ∧
    (applyCookiesForDomain st d).serviceUrl = st.serviceUrl ∧
    (applyCookiesForDomain st d).applyLog = d :: st.applyLog := by
  unfold applyCookiesForDomain
  cases hc : st.client with
  | none => simp [addLog]
  | some client =>
    by_cases hd : d = ""
    · simp [hc, hd, addLog]
    · cases hm : mapGet st.sessionCookies d with
      | none => simp [hc, hd, hm, addLog]
      | some dc =>
        by_cases hl : dc.length > 0 <;> simp [hc, hd, hm, hl, addLog]

/-- The collection a non-empty `processCookies` batch leaves for the
domain: the *original* collection (read once before the loop) merged
with the *last* cookie of the batch — earlier cookies of the same
batch are overwritten. -/
def mergedBatch (st : SessionState) (v : CookieVal) (d : String) : List String :=
  mergeCookiePart ((mapGet st.sessionCookies d).getD []) (lastD v.toArray)

/-- The state a non-empty `processCookies` batch leaves before its
re-apply step. -/
def batchState (st : SessionState) (v : CookieVal) (d : String) : SessionState :=
  { st with sessionCookies := mapSet st.sessionCookies d (mergedBatch st v d) }

/-- Shape of `processCookies` for a non-empty cookie array: store the
merged batch, re-apply, log the summary line, return normally. -/
theorem processCookies_ok (st : SessionState) (v : CookieVal) (d : String)
    (h : v.toArray ≠ []) :
    processCookies st v d =
      Except.ok (addLog (applyCookiesForDomain (batchState st v d) d)
        ("Session cookies updated for domain " ++ d ++ ": " ++
          String.intercalate "; " (mergedBatch st v d))) := by
  have hfold : ∀ (cs : List String), cs ≠ [] → ∀ (s : SessionState), cs.foldl (fun s cookie => { s with sessionCookies := mapSet s.sessionCookies d (mergeCookiePart ((mapGet st.sessionCookies d).getD []) cookie) }) s = { s with sessionCookies := mapSet s.sessionCookies d (mergeCookiePart ((mapGet st.sessionCookies d).getD []) (lastD cs)) } := by
    intro cs
    induction cs with
    | nil => intro hcs; exact absurd rfl hcs
    | cons c rest ih =>
      intro _ s
      cases rest with
      | nil => simp [List.foldl, lastD]
      | cons c2 rest2 =>
        rw [List.foldl_cons, ih (by simp)]
        simp [mapSet_mapSet, lastD]
  simp only [processCookies]
  rw [hfold v.toArray h st]
  have happly := (applyCookiesForDomain_frame (batchState st v d) d).1
  have hbs : ({ st with sessionCookies := mapSet st.sessionCookies d (mergeCookiePart ((mapGet st.sessionCookies d).getD []) (lastD v.toArray)) } : SessionState) = batchState st v d := rfl
  rw [hbs, happly]
  rw [show (batchState st v d).sessionCookies = mapSet st.sessionCookies d (mergedBatch st v d) from rfl, mapGet_mapSet_self]

theorem addLog_sessionCookies (st : SessionState) (m : String) :
    (addLog st m).sessionCookies = st.sessionCookies := rfl

theorem addLog_applyLog (st : SessionState) (m : String) :
    (addLog st m).applyLog = st.applyLog := rfl

/-- Shape of `processCookies` for an empty cookie array: the loop does
nothing, the re-apply still runs, and the summary log line throws a
`TypeError` (caught upstream) when the domain is absent from the
store. -/
theorem processCookies_nil (st : SessionState) (v : CookieVal) (d : String)
    (h : v.toArray = []) :
    processCookies st v d =
      match mapGet st.sessionCookies d with
      | some l =>
        Except.ok (addLog (applyCookiesForDomain st d)
          ("Session cookies updated for domain " ++ d ++ ": " ++
            String.intercalate "; " l))
      | none => Except.error (applyCookiesForDomain st d) := by
  simp only [processCookies, h, List.foldl_nil]
  rw [(applyCookiesForDomain_frame st d).1]

theorem mergeCookiePart_ne_nil (l : List String) (c : String) :
    mergeCookiePart l c ≠ [] := by
  rw [mergeCookiePart_def]
  simp

/-- Store shape after a caught `processCookies` run. -/
theorem processCookies_resState_store (st : SessionState) (v : CookieVal)
    (d : String) :
    (resState (processCookies st v d)).sessionCookies =
      if v.toArray = [] then st.sessionCookies
      else mapSet st.sessionCookies d (mergedBatch st v d) := by
  by_cases h : v.toArray = []
  · rw [processCookies_nil st v d h, if_pos h]
    cases hm : mapGet st.sessionCookies d <;>
      simp [resState, addLog_sessionCookies, (applyCookiesForDomain_frame st d).1]
  · rw [processCookies_ok st v d h, if_neg h]
    simp only [resState, addLog_sessionCookies,
      (applyCookiesForDomain_frame (batchState st v d) d).1]
    rfl

/-- Every run of `processCookies`, caught or not, invokes
`applyCookiesForDomain` on its domain exactly once. -/
theorem processCookies_resState_applyLog (st : SessionState) (v : CookieVal)
    (d : String) :
    (resState (processCookies st v d)).applyLog = d :: st.applyLog := by
  by_cases h : v.toArray = []
  · rw [processCookies_nil st v d h]
    cases hm : mapGet st.sessionCookies d <;>
      simp [resState, addLog_applyLog, (applyCookiesForDomain_frame st d).2.2.2.2]
  · rw [processCookies_ok st v d h]
    simp only [resState, addLog_applyLog,
      (applyCookiesForDomain_frame (batchState st v d) d).2.2.2.2]
    rfl

/-! ## Store invariants -/

/-- Every collection present in the store is non-empty. -/
def StoreNonempty (m : List (String × List String)) : Prop :=
  ∀ dd l, mapGet m dd = some l → l ≠ []

theorem StoreNonempty_mapSet (m : List (String × List String)) (d : String)
    (M : List String) (h : StoreNonempty m) (hM : M ≠ []) :
    StoreNonempty (mapSet m d M) := by
  intro dd l hget
  by_cases hdd : dd = d
  · subst hdd
    rw [mapGet_mapSet_self] at hget
    cases hget
    exact hM
  · rw [mapGet_mapSet_ne m d dd M hdd] at hget
    exact h dd l hget

theorem StoreNonempty_extract (st : SessionState) (r : CallResult)
    (h : StoreNonempty st.sessionCookies) :
    StoreNonempty (extractCookiesFromMultipleSources st r).sessionCookies := by
  unfold extractCookiesFromMultipleSources
  cases hd : st.currentDomain with
  | none => exact h
  | some d =>
    by_cases hne : d = ""
    · simpa [hne] using h
    · simp only [hne, if_false]
      cases h1 : strat1 st with
      | some v =>
        rw [processCookies_resState_store]
        by_cases hv : v.toArray = []
        · simpa [hv] using h
        · rw [if_neg hv]
          exact StoreNonempty_mapSet _ d _ h (mergeCookiePart_ne_nil _ _)
      | none =>
        cases h2 : strat2 r with
        | some v =>
          rw [processCookies_resState_store]
          by_cases hv : v.toArray = []
          · simpa [hv] using h
          · rw [if_neg hv]
            exact StoreNonempty_mapSet _ d _ h (mergeCookiePart_ne_nil _ _)
        | none =>
          cases h3 : strat3 r with
          | some cookies =>
            rw [processCookies_resState_store]
            by_cases hv : (CookieVal.arr cookies).toArray = []
            · simpa [hv] using h
            · rw [if_neg hv]
              exact StoreNonempty_mapSet _ d _ h (mergeCookiePart_ne_nil _ _)
          | none => exact h

/-- Pre-load logging changes nothing but the console log. -/
theorem preloadLog_frame (st : SessionState) (td : String) :
    (preloadLog st td).client = st.client ∧
    (preloadLog st td).authCookie = st.authCookie ∧
    (preloadLog st td).wsdlUrl = st.wsdlUrl ∧
    (preloadLog st td).serviceUrl = st.serviceUrl ∧
    (preloadLog st td).sessionCookies = st.sessionCookies ∧
    (preloadLog st td).currentDomain = st.currentDomain ∧
    (preloadLog st td).applyLog = st.applyLog := by
  unfold preloadLog
  cases hm : mapGet st.sessionCookies td with
  | none => simp
  | some l =>
    by_cases hl : l.length > 0 <;> simp [hl, addLog]

/-- The store is untouched by the success tail of `connect`. -/
theorem connectSuccess_sessionCookies (st : SessionState) (client : Client)
    (serviceUrl : String) :
    ((connectSuccess st client serviceUrl).2).sessionCookies =
      st.sessionCookies := by
  unfold connectSuccess
  cases hps : parseHostname serviceUrl with
  | none => rfl
  | some sd =>
    dsimp only
    split
    · split
      · exact (applyCookiesForDomain_frame _ sd).1
      · exact (applyCookiesForDomain_frame _ sd).1
    · exact (applyCookiesForDomain_frame _ sd).1

/-- The store is untouched by `connect`, whatever happens. -/
theorem connect_sessionCookies (st : SessionState) (u : String)
    (o : ConnectOutcome) :
    ((connect st u o).2).sessionCookies = st.sessionCookies := by
  unfold connect
  cases hp : parseHostname u with
  | none => rfl
  | some td =>
    dsimp only
    cases o with
    | failure msg =>
      show (addLog (preloadLog _ td) _).sessionCookies = st.sessionCookies
      rw [addLog_sessionCookies, (preloadLog_frame _ td).2.2.2.2.1]
    | success client serviceUrl =>
      rw [show ((match ConnectOutcome.success client serviceUrl with
        | ConnectOutcome.failure errMsg => (false, addLog (preloadLog { st with wsdlUrl := some u } td) ("Failed to connect to SOAP service: " ++ errMsg))
        | ConnectOutcome.success c s => connectSuccess (preloadLog { st with wsdlUrl := some u } td) c s) :
          Bool × SessionState) = connectSuccess (preloadLog { st with wsdlUrl := some u } td) client serviceUrl from rfl]
      rw [connectSuccess_sessionCookies, (preloadLog_frame _ td).2.2.2.2.1]

/-- Every collection a reachable session stores is non-empty: the
extraction merge always appends the merged part, the manual path
stores at least one (possibly blank) piece because JS `split` never
returns an empty array, and deletion removes whole collections. -/
theorem reachable_storeNonempty (st : SessionState) (h : Reachable st) :
    StoreNonempty st.sessionCookies := by
  induction h with
  | init =>
    intro dd l hget
    simp [initialState, mapGet] at hget
  | connect u o _ ih =>
    rw [connect_sessionCookies]
    exact ih
  | executeMethod m o _ ih =>
    rename_i st' _
    unfold executeMethod
    cases hc : st'.client with
    | none => exact ih
    | some client =>
      cases o with
      | failure msg => exact ih
      | success r lh =>
        dsimp only
        apply StoreNonempty_extract
        exact ih
  | extractLegacy raw _ ih =>
    exact StoreNonempty_extract _ _ ih
  | addCookies d c _ ih =>
    rename_i st' _
    unfold addCookiesForDomain
    by_cases hg : d = "" ∨ c = ""
    · simpa [hg] using ih
    · simp only [hg, if_false]
      dsimp only
      split
      · rw [addLog_sessionCookies, (applyCookiesForDomain_frame _ d).1]
        exact StoreNonempty_mapSet _ d _ ih
          (by simpa using jsSplit_ne_nil c ';')
      · rw [addLog_sessionCookies]
        exact StoreNonempty_mapSet _ d _ ih
          (by simpa using jsSplit_ne_nil c ';')
  | clear dom _ ih =>
    rename_i st' _
    unfold clearSessionCookies
    dsimp only
    split
    · next t heq =>
      split
      · exact ih
      · intro dd l hget
        rw [addLog_sessionCookies] at hget
        rw [show ({ st' with sessionCookies := mapDelete st'.sessionCookies t } : SessionState).sessionCookies = mapDelete st'.sessionCookies t from rfl] at hget
        rw [mapGet_mapDelete] at hget
        by_cases hdd : dd = t
        · simp [hdd] at hget
        · rw [if_neg hdd] at hget
          exact ih dd l hget
    · exact ih

/-! ## Characterisation of the extraction strategy chain -/

/-- Truthiness of any of the three strategy data sources (the chain
checks them in order, so some source fires exactly when one of the
three is present). -/
def extractionFinds (st : SessionState) (r : CallResult) : Bool :=
  (strat1 st).isSome || (strat2 r).isSome || (strat3 r).isSome

theorem extract_noDomain (st : SessionState) (r : CallResult)
    (h : st.currentDomain = none) :
    extractCookiesFromMultipleSources st r = st := by
  unfold extractCookiesFromMultipleSources
  rw [h]

theorem extract_emptyDomain (st : SessionState) (r : CallResult)
    (h : st.currentDomain = some "") :
    extractCookiesFromMultipleSources st r = st := by
  unfold extractCookiesFromMultipleSources
  rw [h]
  simp

theorem extract_strat1 (st : SessionState) (r : CallResult) (d : String)
    (v : CookieVal) (hd : st.currentDomain = some d) (hne : d ≠ "")
    (h1 : strat1 st = some v) :
    extractCookiesFromMultipleSources st r =
      resState (processCookies
        (addLog st "Found cookies in SOAP client response headers") v d) := by
  unfold extractCookiesFromMultipleSources
  rw [hd]
  simp only [hne, if_false, h1, reduceIte]

theorem extract_strat2 (st : SessionState) (r : CallResult) (d : String)
    (v : CookieVal) (hd : st.currentDomain = some d) (hne : d ≠ "")
    (h1 : strat1 st = none) (h2 : strat2 r = some v) :
    extractCookiesFromMultipleSources st r =
      resState (processCookies
        (addLog st "Found cookies in raw response headers") v d) := by
  unfold extractCookiesFromMultipleSources
  rw [hd]
  simp only [hne, if_false, h1, h2, reduceIte]

theorem extract_strat3 (st : SessionState) (r : CallResult) (d : String)
    (cookies : List String) (hd : st.currentDomain = some d) (hne : d ≠ "")
    (h1 : strat1 st = none) (h2 : strat2 r = none)
    (h3 : strat3 r = some cookies) :
    extractCookiesFromMultipleSources st r =
      resState (processCookies
        (addLog st "Found cookies in raw response text")
        (CookieVal.arr cookies) d) := by
  unfold extractCookiesFromMultipleSources
  rw [hd]
  simp only [hne, if_false, h1, h2, h3, reduceIte]

theorem extract_notFound (st : SessionState) (r : CallResult) (d : String)
    (hd : st.currentDomain = some d) (hne : d ≠ "")
    (h1 : strat1 st = none) (h2 : strat2 r = none) (h3 : strat3 r = none) :
    extractCookiesFromMultipleSources st r =
      addLog st "No cookies found in response" := by
  unfold extractCookiesFromMultipleSources
  rw [hd]
  simp only [hne, if_false, h1, h2, h3, reduceIte]

/-- The re-apply step runs during extraction exactly when some
strategy data source is truthy. -/
theorem extract_applyLog (st : SessionState) (r : CallResult) (d : String)
    (hd : st.currentDomain = some d) (hne : d ≠ "") :
    (extractCookiesFromMultipleSources st r).applyLog =
      if extractionFinds st r then d :: st.applyLog else st.applyLog := by
  cases h1 : strat1 st with
  | some v =>
    rw [extract_strat1 st r d v hd hne h1, processCookies_resState_applyLog,
      addLog_applyLog]
    simp [extractionFinds, h1]
  | none =>
    cases h2 : strat2 r with
    | some v =>
      rw [extract_strat2 st r d v hd hne h1 h2, processCookies_resState_applyLog,
        addLog_applyLog]
      simp [extractionFinds, h1, h2]
    | none =>
      cases h3 : strat3 r with
      | some cookies =>
        rw [extract_strat3 st r d cookies hd hne h1 h2 h3,
          processCookies_resState_applyLog, addLog_applyLog]
        simp [extractionFinds, h1, h2, h3]
      | none =>
        rw [extract_notFound st r d hd hne h1 h2 h3, addLog_applyLog]
        simp [extractionFinds, h1, h2, h3]

/-! ## Claims -/

/-- A state that already performed a connect attempt earlier: its
`wsdlUrl` records the old WSDL location. -/
def c5State : SessionState :=
  { initialState with wsdlUrl := some "http://old.example.com/a?wsdl" }

/-- Claim C5, counterexample: a failing connect returns `false` (no
exception reaches the caller) and the session state is *not* as it was
before the attempt — `this.wsdlUrl` was overwritten with the new URL
before the construction failure. -/
theorem claim5_counterexample :
    (connect c5State "http://new.example.net/b?wsdl"
      (ConnectOutcome.failure "ECONNREFUSED")).1 = false ∧
    (connect c5State "http://new.example.net/b?wsdl"
      (ConnectOutcome.failure "ECONNREFUSED")).2.wsdlUrl =
        some "http://new.example.net/b?wsdl" ∧
    some "http://new.example.net/b?wsdl" ≠ c5State.wsdlUrl := by
  refine ⟨rfl, rfl, by decide⟩

/-- Claim C5 (amended): when RPC client construction during connect
fails, the error is caught and `connect` returns `false`; the client,
current domain, service URL, cookie store and `authCookie` are
unchanged (in particular no connection becomes active), but
`this.wsdlUrl` has already been updated to the attempted URL. -/
theorem claim5_theorem (st : SessionState) (u msg : String) :
    (connect st u (ConnectOutcome.failure msg)).1 = false ∧
    (connect st u (ConnectOutcome.failure msg)).2.client = st.client ∧
    (connect st u (ConnectOutcome.failure msg)).2.currentDomain = st.currentDomain ∧
    (connect st u (ConnectOutcome.failure msg)).2.serviceUrl = st.serviceUrl ∧
    (connect st u (ConnectOutcome.failure msg)).2.sessionCookies = st.sessionCookies ∧
    (connect st u (ConnectOutcome.failure msg)).2.authCookie = st.authCookie ∧
    (connect st u (ConnectOutcome.failure msg)).2.wsdlUrl = some u := by
  unfold connect
  cases hp : parseHostname u with
  | none => exact ⟨rfl, rfl, rfl, rfl, rfl, rfl, rfl⟩
  | some td =>
    dsimp only
    have hf := preloadLog_frame { st with wsdlUrl := some u } td
    exact ⟨rfl, hf.1, hf.2.2.2.2.2.1, hf.2.2.2.1, hf.2.2.2.2.1, hf.2.1, hf.2.2.1⟩

/-- Claim C6: with no client, `executeMethod` throws
`Not connected to any service` and touches nothing; with a client and
a failing RPC call, the original error is rethrown, a console line
carrying the method name is emitted, and the cookie store is left
unchanged (no extraction or merge runs). -/
theorem claim6_theorem (st : SessionState) (m msg : String) :
    (st.client = none → ∀ o,
      executeMethod st m o = (Except.error "Not connected to any service", st)) ∧
    (∀ cl, st.client = some cl →
      executeMethod st m (RpcOutcome.failure msg) =
        (Except.error msg,
          addLog st ("Failed to execute method " ++ m ++ ": " ++ msg)) ∧
      (addLog st ("Failed to execute method " ++ m ++ ": " ++ msg)).sessionCookies =
        st.sessionCookies) := by
  constructor
  · intro hc o
    unfold executeMethod
    rw [hc]
  · intro cl hc
    refine ⟨?_, rfl⟩
    unfold executeMethod
    rw [hc]

theorem claim6_witness :
    (executeMethod initialState "GetData" (RpcOutcome.failure "boom") =
      (Except.error "Not connected to any service", initialState)) ∧
    (executeMethod { initialState with client := some { lastResponseHeaders := none, httpCookie := none } } "GetData" (RpcOutcome.failure "boom") =
      (Except.error "boom",
        addLog { initialState with client := some { lastResponseHeaders := none, httpCookie := none } } ("Failed to execute method " ++ "GetData" ++ ": " ++ "boom"))) :=
  ⟨(claim6_theorem initialState "GetData" "boom").1 rfl (RpcOutcome.failure "boom"),
    ((claim6_theorem { initialState with client := some { lastResponseHeaders := none, httpCookie := none } } "GetData" "boom").2
      { lastResponseHeaders := none, httpCookie := none } rfl).1⟩

/-- Claim C7: when the target domain has no stored cookies (absent or
empty collection) `applyCookiesForDomain` leaves the client — and
hence any previously attached `Cookie` header — untouched; when the
domain has a non-empty collection it replaces the header with the
freshly rendered string. -/
theorem claim7_theorem (st : SessionState) (d : String) :
    ((mapGet st.sessionCookies d = none ∨ mapGet st.sessionCookies d = some []) →
      (applyCookiesForDomain st d).client = st.client ∧
      (applyCookiesForDomain st d).sessionCookies = st.sessionCookies) ∧
    (∀ cl l, st.client = some cl → d ≠ "" →
      mapGet st.sessionCookies d = some l → l ≠ [] →
      (applyCookiesForDomain st d).client =
        some { cl with httpCookie := some (String.intercalate "; " l) }) := by
  constructor
  · intro habs
    unfold applyCookiesForDomain
    cases hc : st.client with
    | none => exact ⟨rfl, rfl⟩
    | some cl =>
      by_cases hd : d = ""
      · simp [hd, addLog]
      · rcases habs with hnone | hempty
        · simp [hd, hnone, addLog]
        · simp [hd, hempty, addLog]
  · intro cl l hc hd hget hne
    unfold applyCookiesForDomain
    rw [hc]
    simp only [hd, if_false, reduceIte]
    rw [hget]
    simp [List.length_pos.mpr hne, addLog]

theorem claim7_witness :
    ((mapGet initialState.sessionCookies "d" = none ∨
        mapGet initialState.sessionCookies "d" = some []) ∧
      (applyCookiesForDomain initialState "d").client = initialState.client) ∧
    (applyCookiesForDomain { initialState with client := some { lastResponseHeaders := none, httpCookie := some "OLD=1" }, sessionCookies := [("d", ["SID=abc", "T=2"])] } "d").client =
      some { lastResponseHeaders := none, httpCookie := some (String.intercalate "; " ["SID=abc", "T=2"]) } :=
  ⟨⟨Or.inl rfl, ((claim7_theorem initialState "d").1 (Or.inl rfl)).1⟩,
    (claim7_theorem { initialState with client := some { lastResponseHeaders := none, httpCookie := some "OLD=1" }, sessionCookies := [("d", ["SID=abc", "T=2"])] } "d").2
      { lastResponseHeaders := none, httpCookie := some "OLD=1" } ["SID=abc", "T=2"]
      rfl (by decide) rfl (by decide)⟩

/-- A connected session on domain `d` with no cookies anywhere. -/
def c3State : SessionState :=
  { initialState with
    client := some { lastResponseHeaders := none, httpCookie := none },
    currentDomain := some "d" }

/-- Claim C3, counterexample: a successful `executeMethod` whose
response carries no cookies in any strategy source does *not* invoke
`applyCookiesForDomain` (the ghost `applyLog`, which records every
invocation, is unchanged) — the re-apply step is not unconditional. -/
theorem claim3_counterexample :
    (executeMethod c3State "GetData"
      (RpcOutcome.success { res := "r", raw := Raw.absent } none)).1 =
        Except.ok "r" ∧
    (executeMethod c3State "GetData"
      (RpcOutcome.success { res := "r", raw := Raw.absent } none)).2.applyLog =
        c3State.applyLog := by
  exact ⟨rfl, rfl⟩

/-- Claim C3 (amended): after a successful `executeMethod`,
`applyCookiesForDomain(currentDomain)` is re-invoked exactly when one
of the extraction strategies fires (the re-apply lives inside
`processCookies`, so it runs even when the merge changes no value);
when no strategy source is truthy, no re-apply happens. -/
theorem claim3_theorem (st : SessionState) (cl : Client) (d m : String)
    (r : CallResult) (lh : Option Headers)
    (hc : st.client = some cl) (hd : st.currentDomain = some d)
    (hne : d ≠ "") :
    ∃ st', executeMethod st m (RpcOutcome.success r lh) = (Except.ok r.res, st') ∧
      st'.applyLog =
        (if extractionFinds { st with client := some { cl with lastResponseHeaders := lh } } r
          then d :: st.applyLog else st.applyLog) := by
  refine ⟨extractCookiesFromMultipleSources { st with client := some { cl with lastResponseHeaders := lh } } r, ?_, ?_⟩
  · unfold executeMethod
    rw [hc]
  · have hd' : ({ st with client := some { cl with lastResponseHeaders := lh } } : SessionState).currentDomain = some d := hd
    exact extract_applyLog _ r d hd' hne

theorem claim3_witness :
    c3State.client = some { lastResponseHeaders := none, httpCookie := none } ∧
    c3State.currentDomain = some "d" ∧
    ∃ st', executeMethod c3State "GetData"
        (RpcOutcome.success { res := "r", raw := Raw.absent } none) =
          (Except.ok ({ res := "r", raw := Raw.absent } : CallResult).res, st') ∧
      st'.applyLog =
        (if extractionFinds { c3State with client := some { lastResponseHeaders := none, httpCookie := none } } { res := "r", raw := Raw.absent }
          then "d" :: c3State.applyLog else c3State.applyLog) :=
  ⟨rfl, rfl,
    claim3_theorem c3State { lastResponseHeaders := none, httpCookie := none }
      "d" "GetData" { res := "r", raw := Raw.absent } none rfl rfl (by decide)⟩

/-- A connected session whose transport left a *present but empty*
`set-cookie` array on the client. -/
def c4State : SessionState :=
  { initialState with
    client := some
      { lastResponseHeaders := some { setCookie := some (CookieVal.arr []) },
        httpCookie := none },
    currentDomain := some "d" }

/-- A call result whose textual body does carry a Set-Cookie value. -/
def c4Result : CallResult :=
  { res := "x", raw := Raw.text "Set-Cookie: a=1" }

/-- Claim C4, counterexample: strategy 1's data source holds an empty
array — zero cookie values, but the source is truthy, so extraction
stops there: the body's `a=1` (which the strategy-3 scan would yield)
never reaches the store.  The chain stops at the first *present*
source, not at the first source yielding one or more values. -/
theorem claim4_counterexample :
    scanSetCookie "Set-Cookie: a=1" = ["a=1"] ∧
    (CookieVal.arr []).toArray = [] ∧
    strat1 c4State = some (CookieVal.arr []) ∧
    (extractCookiesFromMultipleSources c4State c4Result).sessionCookies =
      c4State.sessionCookies := by
  exact ⟨rfl, rfl, rfl, rfl⟩

/-- Claim C4 (amended): the strategies are tried in the fixed order
(1) `client.lastResponseHeaders`, (2) `result.raw.headers`,
(3) `Set-Cookie:` scan of a textual `result.raw`, stopping at the
first *truthy* data source (for the header strategies, a present
`set-cookie` entry — even an empty array; for the scan, a non-empty
match list), never aggregating: when strategy 1 fires, the result does
not depend on `raw` at all, and only strategy 1's values are merged. -/
theorem claim4_theorem (st : SessionState) (d : String)
    (hd : st.currentDomain = some d) (hne : d ≠ "") :
    (∀ v r r', strat1 st = some v →
      extractCookiesFromMultipleSources st r =
        extractCookiesFromMultipleSources st r' ∧
      extractCookiesFromMultipleSources st r =
        resState (processCookies
          (addLog st "Found cookies in SOAP client response headers") v d)) ∧
    (∀ v r, strat1 st = none → strat2 r = some v →
      extractCookiesFromMultipleSources st r =
        resState (processCookies
          (addLog st "Found cookies in raw response headers") v d)) ∧
    (∀ cookies r, strat1 st = none → strat2 r = none →
      strat3 r = some cookies →
      extractCookiesFromMultipleSources st r =
        resState (processCookies
          (addLog st "Found cookies in raw response text")
          (CookieVal.arr cookies) d)) := by
  refine ⟨?_, ?_, ?_⟩
  · intro v r r' h1
    exact ⟨(extract_strat1 st r d v hd hne h1).trans
        (extract_strat1 st r' d v hd hne h1).symm,
      extract_strat1 st r d v hd hne h1⟩
  · intro v r h1 h2
    exact extract_strat2 st r d v hd hne h1 h2
  · intro cookies r h1 h2 h3
    exact extract_strat3 st r d cookies hd hne h1 h2 h3

/-- A connected session whose transport recorded a real cookie in
`lastResponseHeaders`, while the body carries a different one. -/
def c4WitnessState : SessionState :=
  { initialState with
    client := some
      { lastResponseHeaders := some { setCookie := some (CookieVal.arr ["SID=head"]) },
        httpCookie := none },
    currentDomain := some "d" }

theorem claim4_witness :
    c4WitnessState.currentDomain = some "d" ∧
    strat1 c4WitnessState = some (CookieVal.arr ["SID=head"]) ∧
    extractCookiesFromMultipleSources c4WitnessState
        { res := "x", raw := Raw.text "Set-Cookie: SID=body" } =
      extractCookiesFromMultipleSources c4WitnessState
        { res := "x", raw := Raw.absent } ∧
    extractCookiesFromMultipleSources c4WitnessState
        { res := "x", raw := Raw.text "Set-Cookie: SID=body" } =
      resState (processCookies
        (addLog c4WitnessState "Found cookies in SOAP client response headers")
        (CookieVal.arr ["SID=head"]) "d") :=
  ⟨rfl, rfl,
    ((claim4_theorem c4WitnessState "d" rfl (by decide)).1
      (CookieVal.arr ["SID=head"]) { res := "x", raw := Raw.text "Set-Cookie: SID=body" }
      { res := "x", raw := Raw.absent } rfl).1,
    ((claim4_theorem c4WitnessState "d" rfl (by decide)).1
      (CookieVal.arr ["SID=head"]) { res := "x", raw := Raw.text "Set-Cookie: SID=body" }
      { res := "x", raw := Raw.absent } rfl).2⟩

/-- A connected state and result that make the extraction's internal
`TypeError` fire (empty `set-cookie` array on an absent store domain):
used to show the catch swallows it. -/
def c10State : SessionState :=
  { initialState with
    client := some
      { lastResponseHeaders := none, httpCookie := none },
    currentDomain := some "d" }

/-- Claim C10: extraction never raises to the caller — with no current
domain it returns the state untouched before even entering the `try`,
and `executeMethod` returns the RPC result for *every* result shape
and every headers value the transport leaves behind (extraction is a
total function; its internal errors are caught). -/
theorem claim10_theorem (st : SessionState) (m : String) :
    (∀ r, st.currentDomain = none →
      extractCookiesFromMultipleSources st r = st) ∧
    (∀ cl r lh, st.client = some cl →
      (executeMethod st m (RpcOutcome.success r lh)).1 = Except.ok r.res) := by
  constructor
  · intro r h
    exact extract_noDomain st r h
  · intro cl r lh hc
    unfold executeMethod
    rw [hc]

theorem claim10_witness :
    (extractCookiesFromMultipleSources initialState
      { res := "x", raw := Raw.text "Set-Cookie: a=1" } = initialState) ∧
    (executeMethod c10State "GetData"
      (RpcOutcome.success { res := "x", raw := Raw.absent }
        (some { setCookie := some (CookieVal.arr []) }))).1 = Except.ok "x" :=
  ⟨(claim10_theorem initialState "GetData").1
      { res := "x", raw := Raw.text "Set-Cookie: a=1" } rfl,
    (claim10_theorem c10State "GetData").2
      { lastResponseHeaders := none, httpCookie := none }
      { res := "x", raw := Raw.absent }
      (some { setCookie := some (CookieVal.arr []) }) rfl⟩

/-- Store shape of a successful non-empty `processCookies` run: the
domain maps to the merged batch, other domains are unchanged. -/
theorem processCookies_store_get (st : SessionState) (v : CookieVal) (d : String)
    (h : v.toArray ≠ []) :
    ∃ st', processCookies st v d = Except.ok st' ∧
      mapGet st'.sessionCookies d = some (mergedBatch st v d) ∧
      ∀ dd, dd ≠ d → mapGet st'.sessionCookies dd = mapGet st.sessionCookies dd := by
  refine ⟨_, processCookies_ok st v d h, ?_, ?_⟩
  · rw [addLog_sessionCookies, (applyCookiesForDomain_frame _ d).1]
    rw [show (batchState st v d).sessionCookies = mapSet st.sessionCookies d (mergedBatch st v d) from rfl]
    rw [mapGet_mapSet_self]
  · intro dd hdd
    rw [addLog_sessionCookies, (applyCookiesForDomain_frame _ d).1]
    rw [show (batchState st v d).sessionCookies = mapSet st.sessionCookies d (mergedBatch st v d) from rfl]
    rw [mapGet_mapSet_ne _ _ _ _ hdd]

/-- Among the merged collection there is exactly one entry with the
merged name, and it is the freshly appended part. -/
theorem filterName_countP (l : List String) (p : String) :
    ((l.filter (fun e => decide (cookieName e ≠ cookieName p))) ++ [p]).countP
      (fun e => decide (cookieName e = cookieName p)) = 1 := by
  rw [List.countP_append]
  have h0 : (l.filter (fun e => decide (cookieName e ≠ cookieName p))).countP
      (fun e => decide (cookieName e = cookieName p)) = 0 := by
    rw [List.countP_eq_zero]
    intro a ha
    have := (List.mem_filter.mp ha).2
    simp at this ⊢
    exact this
  rw [h0]
  simp [List.countP_cons]

/-- A store in which domain `d` holds a bare entry without `=`. -/
def c1State : SessionState :=
  { initialState with sessionCookies := [("d", ["foo"])] }

/-- Claim C1, counterexample: merging the raw cookie string `"foo"`
(no `=`) into a collection already holding the entry `"foo"` — an
entry with that very name — removes nothing (the filter matches only
the literal prefix `"foo="`) and appends a duplicate: the collection
ends with *two* entries named `foo`, refuting both the stated removal
rule and the exactly-one-entry-per-name conclusion. -/
theorem claim1_counterexample :
    cookieName "foo" = "foo" ∧
    (resState (processCookies c1State (CookieVal.arr ["foo"]) "d")).sessionCookies =
      [("d", ["foo", "foo"])] ∧
    List.countP (fun e => decide (cookieName e = "foo")) ["foo", "foo"] = 2 := by
  exact ⟨rfl, rfl, rfl⟩

/-- Claim C1 (amended): merging one raw cookie string `c` into a
domain collection *whose stored entries all contain `=`* behaves as
claimed: split `c` at the first `;`, take the name before the first
`=`; entries with that name are removed, the new part is appended at
the end (other entries keep their relative order), and the resulting
collection holds exactly one entry with that name.  A stored entry
without `=` escapes the removal (see the counterexample). -/
theorem claim1_theorem (st : SessionState) (d c : String)
    (hl : ∀ e ∈ (mapGet st.sessionCookies d).getD [], '=' ∈ e.data) :
    ∃ st', processCookies st (CookieVal.arr [c]) d = Except.ok st' ∧
      mapGet st'.sessionCookies d =
        some ((((mapGet st.sessionCookies d).getD []).filter
          (fun e => decide (cookieName e ≠ cookieName (jsFirst c ';')))) ++
          [jsFirst c ';']) ∧
      ((((mapGet st.sessionCookies d).getD []).filter
          (fun e => decide (cookieName e ≠ cookieName (jsFirst c ';')))) ++
          [jsFirst c ';']).countP
        (fun e => decide (cookieName e = cookieName (jsFirst c ';'))) = 1 := by
  have harr : (CookieVal.arr [c]).toArray ≠ [] := by simp [CookieVal.toArray]
  obtain ⟨st', heq, hget, _⟩ := processCookies_store_get st (CookieVal.arr [c]) d harr
  refine ⟨st', heq, ?_, filterName_countP _ _⟩
  rw [hget]
  rw [show mergedBatch st (CookieVal.arr [c]) d = mergeCookiePart ((mapGet st.sessionCookies d).getD []) c from rfl]
  rw [mergeCookiePart_eq_filter _ c hl]

theorem claim1_witness :
    (∀ e ∈ (mapGet ({ initialState with sessionCookies := [("d", ["a=1", "b=2"])] } : SessionState).sessionCookies "d").getD [], '=' ∈ e.data) ∧
    ∃ st', processCookies { initialState with sessionCookies := [("d", ["a=1", "b=2"])] } (CookieVal.arr ["a=9; Path=/"]) "d" = Except.ok st' ∧
      mapGet st'.sessionCookies "d" =
        some ((((mapGet ({ initialState with sessionCookies := [("d", ["a=1", "b=2"])] } : SessionState).sessionCookies "d").getD []).filter
          (fun e => decide (cookieName e ≠ cookieName (jsFirst "a=9; Path=/" ';')))) ++
          [jsFirst "a=9; Path=/" ';']) ∧
      ((((mapGet ({ initialState with sessionCookies := [("d", ["a=1", "b=2"])] } : SessionState).sessionCookies "d").getD []).filter
          (fun e => decide (cookieName e ≠ cookieName (jsFirst "a=9; Path=/" ';')))) ++
          [jsFirst "a=9; Path=/" ';']).countP
        (fun e => decide (cookieName e = cookieName (jsFirst "a=9; Path=/" ';'))) = 1 :=
  ⟨by decide,
    claim1_theorem { initialState with sessionCookies := [("d", ["a=1", "b=2"])] } "d" "a=9; Path=/" (by decide)⟩

/-- Claim C9: merging the identical `name=value` cookie twice (the
part before `;` contains `=`) is idempotent on the stored collection
value: the second run filters out the part the first run appended and
re-appends it, so the collection is unchanged, holds exactly one
`name=`-entry, and that entry — the merged part — sits at the end. -/
theorem claim9_theorem (st : SessionState) (d c : String)
    (hp : '=' ∈ (jsFirst c ';').data) :
    ∃ st1 st2 L,
      processCookies st (CookieVal.arr [c]) d = Except.ok st1 ∧
      processCookies st1 (CookieVal.arr [c]) d = Except.ok st2 ∧
      mapGet st1.sessionCookies d = some L ∧
      mapGet st2.sessionCookies d = some L ∧
      L.countP (fun e => jsStartsWith e (cookieName (jsFirst c ';') ++ "=")) = 1 ∧
      L.getLast? = some (jsFirst c ';') := by
  have harr : (CookieVal.arr [c]).toArray ≠ [] := by simp [CookieVal.toArray]
  obtain ⟨st1, h1, hg1, _⟩ := processCookies_store_get st (CookieVal.arr [c]) d harr
  obtain ⟨st2, h2, hg2, _⟩ := processCookies_store_get st1 (CookieVal.arr [c]) d harr
  have hM : mergedBatch st1 (CookieVal.arr [c]) d = mergedBatch st (CookieVal.arr [c]) d := by
    have hone : (mapGet st1.sessionCookies d).getD [] = mergedBatch st (CookieVal.arr [c]) d := by
      rw [hg1]
      rfl
    rw [show mergedBatch st1 (CookieVal.arr [c]) d = mergeCookiePart ((mapGet st1.sessionCookies d).getD []) c from rfl, hone]
    rw [show mergedBatch st (CookieVal.arr [c]) d = mergeCookiePart ((mapGet st.sessionCookies d).getD []) c from rfl]
    exact mergeCookiePart_idem _ c hp
  refine ⟨st1, st2, mergedBatch st (CookieVal.arr [c]) d, h1, h2, hg1, ?_, ?_, ?_⟩
  · rw [hg2, hM]
  · rw [show mergedBatch st (CookieVal.arr [c]) d = mergeCookiePart ((mapGet st.sessionCookies d).getD []) c from rfl]
    exact (mergeCookiePart_countP _ c hp).1
  · rw [show mergedBatch st (CookieVal.arr [c]) d = mergeCookiePart ((mapGet st.sessionCookies d).getD []) c from rfl]
    exact (mergeCookiePart_countP _ c hp).2

theorem claim9_witness :
    '=' ∈ (jsFirst "SID=abc; Path=/" ';').data ∧
    ∃ st1 st2 L,
      processCookies { initialState with sessionCookies := [("d", ["T=9"])] } (CookieVal.arr ["SID=abc; Path=/"]) "d" = Except.ok st1 ∧
      processCookies st1 (CookieVal.arr ["SID=abc; Path=/"]) "d" = Except.ok st2 ∧
      mapGet st1.sessionCookies "d" = some L ∧
      mapGet st2.sessionCookies "d" = some L ∧
      L.countP (fun e => jsStartsWith e (cookieName (jsFirst "SID=abc; Path=/" ';') ++ "=")) = 1 ∧
      L.getLast? = some (jsFirst "SID=abc; Path=/" ';') :=
  ⟨by decide,
    claim9_theorem { initialState with sessionCookies := [("d", ["T=9"])] } "d" "SID=abc; Path=/" (by decide)⟩

/-- Well-formedness of one domain collection: every entry is a
`name=value` pair (contains `=`) and names are pairwise distinct (at
most one entry per name). -/
def CollectionWF (l : List String) : Prop :=
  (∀ e ∈ l, '=' ∈ e.data) ∧ l.Pairwise (fun a b => cookieName a ≠ cookieName b)

theorem CollectionWF_nil : CollectionWF [] := ⟨by simp, by simp⟩

/-- The merge step preserves collection well-formedness when the
merged cookie's part contains `=`. -/
theorem CollectionWF_merge (l : List String) (c : String)
    (hl : CollectionWF l) (hp : '=' ∈ (jsFirst c ';').data) :
    CollectionWF (mergeCookiePart l c) := by
  rw [mergeCookiePart_eq_filter l c hl.1]
  constructor
  · intro e he
    rcases List.mem_append.mp he with h | h
    · exact hl.1 e (List.mem_filter.mp h).1
    · rw [List.mem_singleton.mp h]
      exact hp
  · rw [List.pairwise_append]
    refine ⟨List.Pairwise.filter _ hl.2, List.pairwise_singleton _ _, ?_⟩
    intro a ha b hb
    rw [List.mem_singleton.mp hb]
    have := (List.mem_filter.mp ha).2
    simpa using this

/-- A collection `clearSessionCookies` leaves in the store was already
there before. -/
theorem clear_store_get (st : SessionState) (dom : Option String) (dd : String) :
    mapGet (clearSessionCookies st dom).sessionCookies dd = none ∨
    mapGet (clearSessionCookies st dom).sessionCookies dd =
      mapGet st.sessionCookies dd := by
  unfold clearSessionCookies
  dsimp only
  split
  · next t heq =>
    split
    · right
      rfl
    · rw [addLog_sessionCookies]
      rw [show ({ st with sessionCookies := mapDelete st.sessionCookies t } : SessionState).sessionCookies = mapDelete st.sessionCookies t from rfl]
      rw [mapGet_mapDelete]
      by_cases hdd : dd = t
      · left
        simp [hdd]
      · right
        rw [if_neg hdd]
  · right
    rfl

/-- Claim C2, counterexample: `addCookiesForDomain` stores the split
pieces verbatim — `"X=1; X=2"` yields a collection with *two* entries
named `X`, violating the at-most-one-entry-per-name invariant the
claim says every mutating operation preserves. -/
theorem claim2_counterexample :
    (addCookiesForDomain initialState "d" "X=1; X=2").1 = true ∧
    (addCookiesForDomain initialState "d" "X=1; X=2").2.sessionCookies =
      [("d", ["X=1", "X=2"])] ∧
    cookieName "X=1" = "X" ∧ cookieName "X=2" = "X" ∧
    ¬ (["X=1", "X=2"].Pairwise (fun a b => cookieName a ≠ cookieName b)) := by
  exact ⟨rfl, rfl, rfl, rfl, by decide⟩

/-- Claim C2 (amended): the at-most-one-entry-per-name invariant
(together with every entry containing `=`) is preserved by
`processCookies` whenever the merged cookie parts contain `=`, and by
`clearSessionCookies` unconditionally; `addCookiesForDomain` does
*not* preserve it (see the counterexample — it bulk-replaces the
collection with the caller's pieces verbatim). -/
theorem claim2_theorem :
    (∀ st v d,
      (∀ dd l, mapGet st.sessionCookies dd = some l → CollectionWF l) →
      (∀ cookie ∈ v.toArray, '=' ∈ (jsFirst cookie ';').data) →
      ∀ dd l,
        mapGet (resState (processCookies st v d)).sessionCookies dd = some l →
        CollectionWF l) ∧
    (∀ st dom,
      (∀ dd l, mapGet st.sessionCookies dd = some l → CollectionWF l) →
      ∀ dd l,
        mapGet (clearSessionCookies st dom).sessionCookies dd = some l →
        CollectionWF l) := by
  constructor
  · intro st v d hwf hv dd l hget
    rw [processCookies_resState_store] at hget
    by_cases hva : v.toArray = []
    · rw [if_pos hva] at hget
      exact hwf dd l hget
    · rw [if_neg hva] at hget
      by_cases hdd : dd = d
      · subst hdd
        rw [mapGet_mapSet_self] at hget
        cases hget
        refine CollectionWF_merge _ _ ?_ (hv (lastD v.toArray) (lastD_mem _ hva))
        cases hold : mapGet st.sessionCookies dd with
        | none => exact CollectionWF_nil
        | some l' => exact hwf dd l' hold
      · rw [mapGet_mapSet_ne _ _ _ _ hdd] at hget
        exact hwf dd l hget
  · intro st dom hwf dd l hget
    rcases clear_store_get st dom dd with hcase | hcase
    · rw [hcase] at hget
      cases hget
    · rw [hcase] at hget
      exact hwf dd l hget

theorem claim2_witness : CollectionWF ["a=2"] := by
  have hwf : ∀ dd l, mapGet ({ initialState with sessionCookies := [("d", ["a=1"])] } : SessionState).sessionCookies dd = some l → CollectionWF l := by
    intro dd l hget
    have hget' : (if ("d" : String) = dd then some ["a=1"] else none) = some l := hget
    by_cases hdd : ("d" : String) = dd
    · rw [if_pos hdd] at hget'
      cases hget'
      exact ⟨by decide, by decide⟩
    · rw [if_neg hdd] at hget'
      cases hget'
  exact claim2_theorem.1 { initialState with sessionCookies := [("d", ["a=1"])] }
    (CookieVal.arr ["a=2; Path=/"]) "d" hwf (by decide) "d" ["a=2"] rfl

/-- Claim C8: for every reachable session state, rendering the current
domain's cookies joins the entries with `"; "` in collection order,
and an absent (or absent-domain) collection renders to the semantic
`null`, never to a literal empty string: the store never holds an
empty collection (`reachable_storeNonempty`), absence yields `none`,
and presence yields the `"; "`-join of a non-empty collection. -/
theorem claim8_theorem (st : SessionState) (h : Reachable st) :
    (st.currentDomain = none → getSessionCookies st = none) ∧
    (st.currentDomain = some "" → getSessionCookies st = none) ∧
    (∀ d, st.currentDomain = some d → d ≠ "" →
      (mapGet st.sessionCookies d = none → getSessionCookies st = none) ∧
      (∀ l, mapGet st.sessionCookies d = some l →
        l ≠ [] ∧ getSessionCookies st = some (String.intercalate "; " l))) := by
  refine ⟨?_, ?_, ?_⟩
  · intro hd
    unfold getSessionCookies
    rw [hd]
  · intro hd
    unfold getSessionCookies
    rw [hd]
    simp
  · intro d hd hne
    constructor
    · intro hget
      unfold getSessionCookies
      rw [hd]
      simp only [hne, if_false, reduceIte]
      rw [hget]
    · intro l hget
      refine ⟨reachable_storeNonempty st h d l hget, ?_⟩
      unfold getSessionCookies
      rw [hd]
      simp only [hne, if_false, reduceIte]
      rw [hget]

/-- A reachable state: manual cookies for `d`, then a connect whose
WSDL and service endpoint both live on `d`. -/
def c8State : SessionState :=
  (connect (addCookiesForDomain initialState "d" "X=1").2 "http://d/x?wsdl"
    (ConnectOutcome.success { lastResponseHeaders := none, httpCookie := none }
      "http://d/y")).2

theorem claim8_witness :
    c8State.currentDomain = some "d" ∧
    mapGet c8State.sessionCookies "d" = some ["X=1"] ∧
    ["X=1"] ≠ [] ∧
    getSessionCookies c8State = some (String.intercalate "; " ["X=1"]) := by
  refine ⟨rfl, rfl, ?_⟩
  exact (claim8_theorem c8State
    (Reachable.connect "http://d/x?wsdl"
      (ConnectOutcome.success { lastResponseHeaders := none, httpCookie := none } "http://d/y")
      (Reachable.addCookies "d" "X=1" Reachable.init))).2.2 "d" rfl (by decide)
    |>.2 ["X=1"] rfl

end SoapClient
